import Mathlib

/-!
# Verification of the visual-width library

A shallow embedding of `src/visual_width.py`: a per-character visual-width
classifier (`VisualWidth._get_char_width`) and a text-width aggregator
(`VisualWidth.calc`) that sums per-code-point widths and rounds the total up
to one decimal place.  Python floats are modelled by exact rationals (every
width constant in the source is a multiple of 0.05, so the intended
real-number semantics is exactly representable).
-/

-- The Batteries rational-number operations are `@[irreducible]`, which
-- blocks `decide`-style evaluation of concrete widths; re-enable
-- unfolding for this development.
attribute [local semireducible] Rat.add Rat.mul Rat.inv Rat.sub Rat.ofScientific

namespace VisualWidth

/-- The Unicode East Asian Width property values returned by
`unicodedata.east_asian_width`: Fullwidth, Halfwidth, Wide, Narrow,
Ambiguous, Neutral. -/
inductive EAWidth where
  | F | H | W | Na | A | N
deriving DecidableEq

/-- The Unicode general-category values this development distinguishes,
as returned by `unicodedata.category`; every category other than the ones
the code tests for is collapsed into `other`. -/
inductive UCategory where
  | Lu | Ll | Lo | Nd | Mn | Mc | Me | Cc | Cf | other
deriving DecidableEq

/-- Modelled from the spec: `unicodedata.east_asian_width`, the Unicode
East Asian Width property (the Python standard library's Unicode database
is not part of the repository).  The table is restricted to the code-point
ranges this development evaluates — the CJK/kana/Hangul/fullwidth blocks
(property `W` or `F`), the ambiguous-width entries of the combining
diacritics, Greek, Cyrillic and Latin Extended-A blocks (property `A`) —
and maps every other code point to Neutral. -/
def east_asian_width (char : Char) : EAWidth :=
  if 0x4E00 ≤ char.toNat ∧ char.toNat ≤ 0x9FFF then .W
  else if 0x3400 ≤ char.toNat ∧ char.toNat ≤ 0x4DBF then .W
  else if 0x3040 ≤ char.toNat ∧ char.toNat ≤ 0x30FF then .W
  else if 0x3100 ≤ char.toNat ∧ char.toNat ≤ 0x312F then .W
  else if 0xAC00 ≤ char.toNat ∧ char.toNat ≤ 0xD7A3 then .W
  else if 0x1100 ≤ char.toNat ∧ char.toNat ≤ 0x115F then .W
  else if 0xFF00 ≤ char.toNat ∧ char.toNat ≤ 0xFF60 then .F
  else if 0xFFE0 ≤ char.toNat ∧ char.toNat ≤ 0xFFE6 then .F
  else if 0xFF61 ≤ char.toNat ∧ char.toNat ≤ 0xFFDC then .H
  else if 0x0300 ≤ char.toNat ∧ char.toNat ≤ 0x036F then .A
  else if (0x0391 ≤ char.toNat ∧ char.toNat ≤ 0x03A1) ∨ (0x03A3 ≤ char.toNat ∧ char.toNat ≤ 0x03C9) then .A
  else if char.toNat = 0x0401 ∨ (0x0410 ≤ char.toNat ∧ char.toNat ≤ 0x044F) ∨ char.toNat = 0x0451 then .A
  else if char.toNat = 0x0101 ∨ char.toNat = 0x0111 ∨ char.toNat = 0x0113 ∨ char.toNat = 0x011B ∨
          (0x0126 ≤ char.toNat ∧ char.toNat ≤ 0x0127) ∨ char.toNat = 0x012B ∨
          (0x0131 ≤ char.toNat ∧ char.toNat ≤ 0x0133) ∨ char.toNat = 0x0138 ∨
          (0x013F ≤ char.toNat ∧ char.toNat ≤ 0x0142) ∨ char.toNat = 0x0144 ∨
          (0x0148 ≤ char.toNat ∧ char.toNat ≤ 0x014B) ∨ char.toNat = 0x014D ∨
          (0x0152 ≤ char.toNat ∧ char.toNat ≤ 0x0153) ∨ (0x0166 ≤ char.toNat ∧ char.toNat ≤ 0x0167) ∨
          char.toNat = 0x016B then .A
  else if char.toNat = 0x00A7 ∨ char.toNat = 0x00B0 ∨ char.toNat = 0x00B1 ∨ char.toNat = 0x00D7 ∨ char.toNat = 0x00F7 then .A
  else .N

/-- Modelled from the spec: `unicodedata.category`, the Unicode general
category (the Python standard library's Unicode database is not part of
the repository).  The table is restricted to the code-point ranges this
development evaluates — ASCII, the combining diacritics block (`Mn`), the
Greek, Cyrillic, Latin Extended-A, Hebrew, Arabic, Devanagari, Thai and
main CJK blocks — and maps every other code point to `other`. -/
def category (char : Char) : UCategory :=
  if char.toNat < 0x20 ∨ char.toNat = 0x7F ∨ (0x80 ≤ char.toNat ∧ char.toNat ≤ 0x9F) then .Cc
  else if 0x30 ≤ char.toNat ∧ char.toNat ≤ 0x39 then .Nd
  else if 0x41 ≤ char.toNat ∧ char.toNat ≤ 0x5A then .Lu
  else if 0x61 ≤ char.toNat ∧ char.toNat ≤ 0x7A then .Ll
  else if char.toNat = 0xAD then .Cf
  else if 0x0300 ≤ char.toNat ∧ char.toNat ≤ 0x036F then .Mn
  else if (0x0391 ≤ char.toNat ∧ char.toNat ≤ 0x03A1) ∨ (0x03A3 ≤ char.toNat ∧ char.toNat ≤ 0x03AB) then .Lu
  else if 0x03B1 ≤ char.toNat ∧ char.toNat ≤ 0x03C9 then .Ll
  else if 0x0400 ≤ char.toNat ∧ char.toNat ≤ 0x042F then .Lu
  else if 0x0430 ≤ char.toNat ∧ char.toNat ≤ 0x045F then .Ll
  else if (0x0100 ≤ char.toNat ∧ char.toNat ≤ 0x0137) ∧ char.toNat % 2 = 0 then .Lu
  else if (0x0100 ≤ char.toNat ∧ char.toNat ≤ 0x0137) ∧ char.toNat % 2 = 1 then .Ll
  else if (0x0139 ≤ char.toNat ∧ char.toNat ≤ 0x0148) ∧ char.toNat % 2 = 1 then .Lu
  else if (0x0139 ≤ char.toNat ∧ char.toNat ≤ 0x0148) ∧ char.toNat % 2 = 0 then .Ll
  else if (0x014A ≤ char.toNat ∧ char.toNat ≤ 0x0177) ∧ char.toNat % 2 = 0 then .Lu
  else if (0x014A ≤ char.toNat ∧ char.toNat ≤ 0x0177) ∧ char.toNat % 2 = 1 then .Ll
  else if 0x0591 ≤ char.toNat ∧ char.toNat ≤ 0x05BD then .Mn
  else if 0x05D0 ≤ char.toNat ∧ char.toNat ≤ 0x05EA then .Lo
  else if 0x0600 ≤ char.toNat ∧ char.toNat ≤ 0x0605 then .Cf
  else if 0x0610 ≤ char.toNat ∧ char.toNat ≤ 0x061A then .Mn
  else if 0x0620 ≤ char.toNat ∧ char.toNat ≤ 0x064A then .Lo
  else if 0x064B ≤ char.toNat ∧ char.toNat ≤ 0x065F then .Mn
  else if 0x0660 ≤ char.toNat ∧ char.toNat ≤ 0x0669 then .Nd
  else if 0x0901 ≤ char.toNat ∧ char.toNat ≤ 0x0902 then .Mn
  else if 0x0905 ≤ char.toNat ∧ char.toNat ≤ 0x0939 then .Lo
  else if 0x0E01 ≤ char.toNat ∧ char.toNat ≤ 0x0E30 then .Lo
  else if 0x0E31 ≤ char.toNat ∧ char.toNat ≤ 0x0E3A then .Mn
  else if 0x3040 ≤ char.toNat ∧ char.toNat ≤ 0x30FF then .Lo
  else if 0x4E00 ≤ char.toNat ∧ char.toNat ≤ 0x9FFF then .Lo
  else if 0xAC00 ≤ char.toNat ∧ char.toNat ≤ 0xD7A3 then .Lo
  else .other

/-- Very narrow characters (0.4 width); `VisualWidth.VERY_NARROW_CHARS`.
The set contains i, l, I, !, |, apostrophe, backtick, ., comma, :, ;. -/
def VERY_NARROW_CHARS : List Char :=
  ['i', 'l', 'I', '!', '|', Char.ofNat 0x27, Char.ofNat 0x60, '.', ',', ':', ';']

/-- Narrow characters (0.6 width); `VisualWidth.NARROW_CHARS`. -/
def NARROW_CHARS : List Char :=
  ['f', 'j', 't', 'r', '(', ')', '[', ']', Char.ofNat 0x7b, Char.ofNat 0x7d,
   Char.ofNat 0x22, '/', Char.ofNat 0x5C, '-']

/-- Wide characters (1.3 width); `VisualWidth.WIDE_CHARS`. -/
def WIDE_CHARS : List Char :=
  ['m', 'w', 'M', 'W', '@', '#', '%', '&', '*', '+', '=']

/-- Python `str.isdigit` restricted to a single character below 0x80
(the only context in which the source calls it): true exactly on the
ASCII decimal digits. -/
def isdigit (char : Char) : Prop :=
  0x30 ≤ char.toNat ∧ char.toNat ≤ 0x39

instance (c : Char) : Decidable (isdigit c) := by unfold isdigit; infer_instance

/-- Python `str.isupper` restricted to a single character below 0x80
(the only context in which the source calls it): true exactly on the
ASCII uppercase letters A–Z. -/
def isupper (char : Char) : Prop :=
  0x41 ≤ char.toNat ∧ char.toNat ≤ 0x5A

instance (c : Char) : Decidable (isupper c) := by unfold isupper; infer_instance

/-- `VisualWidth._get_char_width` (src/visual_width.py lines 31–210):
the visual width of a single character, translated branch by branch.
The Python guard `if not char` cannot arise here because a Lean `Char`
is always one code point. -/
def _get_char_width (char : Char) : ℚ :=
  -- ASCII fast path
  if char.toNat < 128 then
    if char ∈ VERY_NARROW_CHARS then 0.4
    else if char ∈ NARROW_CHARS then 0.6
    else if char ∈ WIDE_CHARS then 1.3
    else if isdigit char then 0.9
    else if char = ' ' then 0.3
    else if char = Char.ofNat 0x09 then 2.0
    else if isupper char ∧ char ≠ 'I' ∧ char ≠ 'M' ∧ char ≠ 'W' then 1.15
    else 1.0
  else
    -- Unicode character processing
    if east_asian_width char = .F ∨ east_asian_width char = .W then 2.0
    else if east_asian_width char = .H then 1.0
    else if category char = .Mn ∨ category char = .Mc ∨ category char = .Me ∨
            category char = .Cc ∨ category char = .Cf then 0.0
    else if 0x4E00 ≤ char.toNat ∧ char.toNat ≤ 0x9FFF then 2.0
    else if (0x3400 ≤ char.toNat ∧ char.toNat ≤ 0x4DBF) ∨
            (0x20000 ≤ char.toNat ∧ char.toNat ≤ 0x2A6DF) ∨
            (0x2A700 ≤ char.toNat ∧ char.toNat ≤ 0x2B73F) ∨
            (0x2B740 ≤ char.toNat ∧ char.toNat ≤ 0x2B81F) ∨
            (0x2B820 ≤ char.toNat ∧ char.toNat ≤ 0x2CEAF) ∨
            (0x2CEB0 ≤ char.toNat ∧ char.toNat ≤ 0x2EBEF) ∨
            (0x2EBF0 ≤ char.toNat ∧ char.toNat ≤ 0x2EE5F) ∨
            (0x30000 ≤ char.toNat ∧ char.toNat ≤ 0x3134F) ∨
            (0x31350 ≤ char.toNat ∧ char.toNat ≤ 0x323AF) then 2.0
    else if (0xF900 ≤ char.toNat ∧ char.toNat ≤ 0xFAFF) ∨
            (0x2F800 ≤ char.toNat ∧ char.toNat ≤ 0x2FA1F) then 2.0
    else if 0x3100 ≤ char.toNat ∧ char.toNat ≤ 0x312F then 2.0
    else if (0x3040 ≤ char.toNat ∧ char.toNat ≤ 0x309F) ∨
            (0x30A0 ≤ char.toNat ∧ char.toNat ≤ 0x30FF) then 2.0
    else if (0xAC00 ≤ char.toNat ∧ char.toNat ≤ 0xD7AF) ∨
            (0x1100 ≤ char.toNat ∧ char.toNat ≤ 0x11FF) ∨
            (0x3130 ≤ char.toNat ∧ char.toNat ≤ 0x318F) ∨
            (0xA960 ≤ char.toNat ∧ char.toNat ≤ 0xA97F) ∨
            (0xD7B0 ≤ char.toNat ∧ char.toNat ≤ 0xD7FF) then 2.0
    else if (0x3000 ≤ char.toNat ∧ char.toNat ≤ 0x303F) ∨
            (0xFF00 ≤ char.toNat ∧ char.toNat ≤ 0xFFEF) ∨
            (0xFE30 ≤ char.toNat ∧ char.toNat ≤ 0xFE4F) ∨
            (0xFE50 ≤ char.toNat ∧ char.toNat ≤ 0xFE6F) then 2.0
    else if 0x2FF0 ≤ char.toNat ∧ char.toNat ≤ 0x2FFF then 2.0
    else if (0x1F300 ≤ char.toNat ∧ char.toNat ≤ 0x1F6FF) ∨
            (0x1F900 ≤ char.toNat ∧ char.toNat ≤ 0x1F9FF) ∨
            (0x1F600 ≤ char.toNat ∧ char.toNat ≤ 0x1F64F) ∨
            (0x1F680 ≤ char.toNat ∧ char.toNat ≤ 0x1F6FF) ∨
            (0x2600 ≤ char.toNat ∧ char.toNat ≤ 0x26FF) ∨
            (0x2700 ≤ char.toNat ∧ char.toNat ≤ 0x27BF) then 2.0
    else if east_asian_width char = .A then
      if 0x0370 ≤ char.toNat ∧ char.toNat ≤ 0x03FF then
        if category char = .Lu then 1.1 else 1.0
      else if 0x0400 ≤ char.toNat ∧ char.toNat ≤ 0x04FF then
        if category char = .Lu then 1.15 else 1.0
      else if 0x0100 ≤ char.toNat ∧ char.toNat ≤ 0x017F then
        if category char = .Lu then 1.1 else 1.0
      else 1.0
    else if 0x0600 ≤ char.toNat ∧ char.toNat ≤ 0x06FF then 0.8
    else if 0x0590 ≤ char.toNat ∧ char.toNat ≤ 0x05FF then 0.9
    else if 0x0E00 ≤ char.toNat ∧ char.toNat ≤ 0x0E7F then 0.9
    else if 0x0900 ≤ char.toNat ∧ char.toNat ≤ 0x097F then 0.9
    else if category char = .Lu then 1.1
    else if category char = .Nd then 0.9
    else 1.0

/-- The accumulation loop of `VisualWidth.calc` (lines 246–249): the
running total of per-character widths over the code points of `text`,
before rounding. -/
def rawSum (text : String) : ℚ :=
  text.data.foldl (fun total_width char => total_width + _get_char_width char) 0

/-- The final rounding step of `VisualWidth.calc` (line 254): multiply by
10, round up to an integer (`math.ceil`), divide by 10.  `Rat.ceil` is the
computable ceiling; `rat_ceil_eq_intCeil` below identifies it with
Mathlib's `Int.ceil`. -/
def roundUpTenths (total_width : ℚ) : ℚ :=
  (Rat.ceil (total_width * 10) : ℚ) / 10

/-- `VisualWidth.calc` (lines 241–254): empty string short-circuits to
0.0; otherwise the accumulated width is rounded up to one decimal
place. -/
def «calc» (text : String) : ℚ :=
  if text = "" then 0.0
  else roundUpTenths (rawSum text)

/-- The set of width constants returned by the branches of
`VisualWidth._get_char_width`. -/
def widthValues : List ℚ :=
  [0, 0.3, 0.4, 0.6, 0.8, 0.9, 1, 1.1, 1.15, 1.3, 2]

/-- The explicit code-point range tables consulted by
`VisualWidth._get_char_width` before the ambiguous-width handling
(lines 100–162): the CJK, kana, Bopomofo, Hangul, CJK-symbol,
ideographic-description and emoji ranges. -/
def inRangeTables (n : Nat) : Prop :=
  (0x4E00 ≤ n ∧ n ≤ 0x9FFF) ∨
  (0x3400 ≤ n ∧ n ≤ 0x4DBF) ∨ (0x20000 ≤ n ∧ n ≤ 0x2A6DF) ∨
  (0x2A700 ≤ n ∧ n ≤ 0x2B73F) ∨ (0x2B740 ≤ n ∧ n ≤ 0x2B81F) ∨
  (0x2B820 ≤ n ∧ n ≤ 0x2CEAF) ∨ (0x2CEB0 ≤ n ∧ n ≤ 0x2EBEF) ∨
  (0x2EBF0 ≤ n ∧ n ≤ 0x2EE5F) ∨ (0x30000 ≤ n ∧ n ≤ 0x3134F) ∨
  (0x31350 ≤ n ∧ n ≤ 0x323AF) ∨
  (0xF900 ≤ n ∧ n ≤ 0xFAFF) ∨ (0x2F800 ≤ n ∧ n ≤ 0x2FA1F) ∨
  (0x3100 ≤ n ∧ n ≤ 0x312F) ∨
  (0x3040 ≤ n ∧ n ≤ 0x309F) ∨ (0x30A0 ≤ n ∧ n ≤ 0x30FF) ∨
  (0xAC00 ≤ n ∧ n ≤ 0xD7AF) ∨ (0x1100 ≤ n ∧ n ≤ 0x11FF) ∨
  (0x3130 ≤ n ∧ n ≤ 0x318F) ∨ (0xA960 ≤ n ∧ n ≤ 0xA97F) ∨
  (0xD7B0 ≤ n ∧ n ≤ 0xD7FF) ∨
  (0x3000 ≤ n ∧ n ≤ 0x303F) ∨ (0xFF00 ≤ n ∧ n ≤ 0xFFEF) ∨
  (0xFE30 ≤ n ∧ n ≤ 0xFE4F) ∨ (0xFE50 ≤ n ∧ n ≤ 0xFE6F) ∨
  (0x2FF0 ≤ n ∧ n ≤ 0x2FFF) ∨
  (0x1F300 ≤ n ∧ n ≤ 0x1F6FF) ∨ (0x1F900 ≤ n ∧ n ≤ 0x1F9FF) ∨
  (0x1F600 ≤ n ∧ n ≤ 0x1F64F) ∨ (0x1F680 ≤ n ∧ n ≤ 0x1F6FF) ∨
  (0x2600 ≤ n ∧ n ≤ 0x26FF) ∨ (0x2700 ≤ n ∧ n ≤ 0x27BF)

/-- Modelled from the spec: the state of the bounded memoization cache
that `functools.lru_cache(maxsize=10000)` wraps around `VisualWidth.calc`
(lines 212–214); an association list of cached (input, result) pairs,
most recently used first.  The decorator itself is Python standard-library
code, not part of the repository. -/
abbrev Cache : Type := List (String × ℚ)

/-- Modelled from the spec: a well-formed cache stores only results of
`VisualWidth.calc` keyed by exact string equality. -/
def CacheWF (cache : Cache) : Prop :=
  ∀ e ∈ cache, e.2 = «calc» e.1

/-- Modelled from the spec: one call through the `lru_cache(maxsize=10000)`
wrapper around `VisualWidth.calc`.  On a hit the cached result is returned
and its entry moves to the front (most recently used); on a miss `calc`
runs, the pair is inserted at the front, and entries beyond capacity
10000 are evicted from the least recently used end. -/
def cachedCalc (cache : Cache) (text : String) : ℚ × Cache :=
  match List.find? (fun e => e.1 == text) cache with
  | some e => (e.2, e :: List.eraseP (fun e => e.1 == text) cache)
  | none => («calc» text, (text, «calc» text) :: List.take 9999 cache)

end VisualWidth

/-- The computable ceiling on `ℚ` agrees with Mathlib's `Int.ceil`. -/
theorem rat_ceil_eq_intCeil (q : ℚ) : Rat.ceil q = ⌈q⌉ := by
  symm
  rw [Int.ceil_eq_iff]
  unfold Rat.ceil
  split
  · rename_i h
    have hq : (q.num : ℚ) = q := by
      conv_rhs => rw [← Rat.num_div_den q]
      rw [h]
      simp
    rw [hq]
    exact ⟨sub_one_lt q, le_refl q⟩
  · rename_i h
    have hfl : q.num / (q.den : ℤ) = ⌊q⌋ := Rat.floor_def.symm
    rw [hfl]
    have hne : ((⌊q⌋ : ℤ) : ℚ) ≠ q := by
      intro heq
      apply h
      rw [← heq]
      exact Rat.den_intCast ⌊q⌋
    constructor
    · push_cast
      have := lt_of_le_of_ne (Int.floor_le q) hne
      linarith
    · push_cast
      exact le_of_lt (Int.lt_floor_add_one q)

namespace VisualWidth

/-- Unfolding `roundUpTenths` through Mathlib's ceiling. -/
theorem roundUpTenths_eq (x : ℚ) : roundUpTenths x = (⌈x * 10⌉ : ℚ) / 10 := by
  unfold roundUpTenths
  rw [rat_ceil_eq_intCeil]

set_option maxHeartbeats 1000000 in
/-- Every branch of the classifier returns one of the eleven width
constants. -/
theorem width_mem_widthValues (c : Char) : _get_char_width c ∈ widthValues := by
  unfold _get_char_width
  by_cases h1 : c.toNat < 128
  · rw [if_pos h1]
    by_cases h2 : c ∈ VERY_NARROW_CHARS
    · rw [if_pos h2]; decide
    rw [if_neg h2]
    by_cases h3 : c ∈ NARROW_CHARS
    · rw [if_pos h3]; decide
    rw [if_neg h3]
    by_cases h4 : c ∈ WIDE_CHARS
    · rw [if_pos h4]; decide
    rw [if_neg h4]
    by_cases h5 : isdigit c
    · rw [if_pos h5]; decide
    rw [if_neg h5]
    by_cases h6 : c = ' '
    · rw [if_pos h6]; decide
    rw [if_neg h6]
    by_cases h7 : c = Char.ofNat 0x09
    · rw [if_pos h7]; decide
    rw [if_neg h7]
    by_cases h8 : isupper c ∧ c ≠ 'I' ∧ c ≠ 'M' ∧ c ≠ 'W'
    · rw [if_pos h8]; decide
    rw [if_neg h8]; decide
  rw [if_neg h1]
  by_cases h9 : east_asian_width c = .F ∨ east_asian_width c = .W
  · rw [if_pos h9]; decide
  rw [if_neg h9]
  by_cases h10 : east_asian_width c = .H
  · rw [if_pos h10]; decide
  rw [if_neg h10]
  by_cases h11 : category c = .Mn ∨ category c = .Mc ∨ category c = .Me ∨
      category c = .Cc ∨ category c = .Cf
  · rw [if_pos h11]; decide
  rw [if_neg h11]
  by_cases h12 : 0x4E00 ≤ c.toNat ∧ c.toNat ≤ 0x9FFF
  · rw [if_pos h12]; decide
  rw [if_neg h12]
  by_cases h13 : (0x3400 ≤ c.toNat ∧ c.toNat ≤ 0x4DBF) ∨
      (0x20000 ≤ c.toNat ∧ c.toNat ≤ 0x2A6DF) ∨
      (0x2A700 ≤ c.toNat ∧ c.toNat ≤ 0x2B73F) ∨
      (0x2B740 ≤ c.toNat ∧ c.toNat ≤ 0x2B81F) ∨
      (0x2B820 ≤ c.toNat ∧ c.toNat ≤ 0x2CEAF) ∨
      (0x2CEB0 ≤ c.toNat ∧ c.toNat ≤ 0x2EBEF) ∨
      (0x2EBF0 ≤ c.toNat ∧ c.toNat ≤ 0x2EE5F) ∨
      (0x30000 ≤ c.toNat ∧ c.toNat ≤ 0x3134F) ∨
      (0x31350 ≤ c.toNat ∧ c.toNat ≤ 0x323AF)
  · rw [if_pos h13]; decide
  rw [if_neg h13]
  by_cases h14 : (0xF900 ≤ c.toNat ∧ c.toNat ≤ 0xFAFF) ∨
      (0x2F800 ≤ c.toNat ∧ c.toNat ≤ 0x2FA1F)
  · rw [if_pos h14]; decide
  rw [if_neg h14]
  by_cases h15 : 0x3100 ≤ c.toNat ∧ c.toNat ≤ 0x312F
  · rw [if_pos h15]; decide
  rw [if_neg h15]
  by_cases h16 : (0x3040 ≤ c.toNat ∧ c.toNat ≤ 0x309F) ∨
      (0x30A0 ≤ c.toNat ∧ c.toNat ≤ 0x30FF)
  · rw [if_pos h16]; decide
  rw [if_neg h16]
  by_cases h17 : (0xAC00 ≤ c.toNat ∧ c.toNat ≤ 0xD7AF) ∨
      (0x1100 ≤ c.toNat ∧ c.toNat ≤ 0x11FF) ∨
      (0x3130 ≤ c.toNat ∧ c.toNat ≤ 0x318F) ∨
      (0xA960 ≤ c.toNat ∧ c.toNat ≤ 0xA97F) ∨
      (0xD7B0 ≤ c.toNat ∧ c.toNat ≤ 0xD7FF)
  · rw [if_pos h17]; decide
  rw [if_neg h17]
  by_cases h18 : (0x3000 ≤ c.toNat ∧ c.toNat ≤ 0x303F) ∨
      (0xFF00 ≤ c.toNat ∧ c.toNat ≤ 0xFFEF) ∨
      (0xFE30 ≤ c.toNat ∧ c.toNat ≤ 0xFE4F) ∨
      (0xFE50 ≤ c.toNat ∧ c.toNat ≤ 0xFE6F)
  · rw [if_pos h18]; decide
  rw [if_neg h18]
  by_cases h19 : 0x2FF0 ≤ c.toNat ∧ c.toNat ≤ 0x2FFF
  · rw [if_pos h19]; decide
  rw [if_neg h19]
  by_cases h20 : (0x1F300 ≤ c.toNat ∧ c.toNat ≤ 0x1F6FF) ∨
      (0x1F900 ≤ c.toNat ∧ c.toNat ≤ 0x1F9FF) ∨
      (0x1F600 ≤ c.toNat ∧ c.toNat ≤ 0x1F64F) ∨
      (0x1F680 ≤ c.toNat ∧ c.toNat ≤ 0x1F6FF) ∨
      (0x2600 ≤ c.toNat ∧ c.toNat ≤ 0x26FF) ∨
      (0x2700 ≤ c.toNat ∧ c.toNat ≤ 0x27BF)
  · rw [if_pos h20]; decide
  rw [if_neg h20]
  by_cases h21 : east_asian_width c = .A
  · rw [if_pos h21]
    split_ifs <;> decide
  rw [if_neg h21]
  by_cases h22 : 0x0600 ≤ c.toNat ∧ c.toNat ≤ 0x06FF
  · rw [if_pos h22]; decide
  rw [if_neg h22]
  by_cases h23 : 0x0590 ≤ c.toNat ∧ c.toNat ≤ 0x05FF
  · rw [if_pos h23]; decide
  rw [if_neg h23]
  by_cases h24 : 0x0E00 ≤ c.toNat ∧ c.toNat ≤ 0x0E7F
  · rw [if_pos h24]; decide
  rw [if_neg h24]
  by_cases h25 : 0x0900 ≤ c.toNat ∧ c.toNat ≤ 0x097F
  · rw [if_pos h25]; decide
  rw [if_neg h25]
  by_cases h26 : category c = .Lu
  · rw [if_pos h26]; decide
  rw [if_neg h26]
  by_cases h27 : category c = .Nd
  · rw [if_pos h27]; decide
  rw [if_neg h27]; decide

/-- Every branch of the classifier returns a non-negative width. -/
theorem width_nonneg (c : Char) : 0 ≤ _get_char_width c := by
  have h := width_mem_widthValues c
  simp only [widthValues, List.mem_cons, List.not_mem_nil, or_false] at h
  rcases h with h | h | h | h | h | h | h | h | h | h | h <;> rw [h] <;> norm_num

/-- Every branch of the classifier returns a width of at most 2.0. -/
theorem width_le_two (c : Char) : _get_char_width c ≤ 2 := by
  have h := width_mem_widthValues c
  simp only [widthValues, List.mem_cons, List.not_mem_nil, or_false] at h
  rcases h with h | h | h | h | h | h | h | h | h | h | h <;> rw [h] <;> norm_num

/-- Accumulating from `a` is `a` plus accumulating from `0`. -/
theorem foldl_width_init (l : List Char) (a : ℚ) :
    l.foldl (fun total_width char => total_width + _get_char_width char) a =
      a + l.foldl (fun total_width char => total_width + _get_char_width char) 0 := by
  induction l generalizing a with
  | nil => simp
  | cons c l ih =>
    simp only [List.foldl_cons]
    rw [ih (a + _get_char_width c), ih (0 + _get_char_width c)]
    ring

theorem rawSum_empty : rawSum "" = 0 := rfl

/-- The accumulation is additive over concatenation. -/
theorem rawSum_append (s t : String) : rawSum (s ++ t) = rawSum s + rawSum t := by
  unfold rawSum
  rw [String.data_append, List.foldl_append, foldl_width_init]

theorem rawSum_nonneg (s : String) : 0 ≤ rawSum s := by
  unfold rawSum
  induction s.data with
  | nil => simp
  | cons c l ih =>
    simp only [List.foldl_cons]
    rw [foldl_width_init]
    have := width_nonneg c
    linarith

/-- The accumulation is bounded by twice the number of code points. -/
theorem rawSum_le_two_mul (s : String) : rawSum s ≤ 2 * s.length := by
  unfold rawSum
  show _ ≤ 2 * (s.data.length : ℚ)
  induction s.data with
  | nil => simp
  | cons c l ih =>
    simp only [List.foldl_cons, List.length_cons]
    rw [foldl_width_init]
    have := width_le_two c
    push_cast
    linarith

/-- Rounding up never decreases the value. -/
theorem le_roundUpTenths (x : ℚ) : x ≤ roundUpTenths x := by
  rw [roundUpTenths_eq]
  have h := Int.le_ceil (x * 10)
  linarith

theorem roundUpTenths_nonneg (x : ℚ) (hx : 0 ≤ x) : 0 ≤ roundUpTenths x :=
  le_trans hx (le_roundUpTenths x)

/-- Rounding up is monotone. -/
theorem roundUpTenths_mono {x y : ℚ} (h : x ≤ y) : roundUpTenths x ≤ roundUpTenths y := by
  rw [roundUpTenths_eq, roundUpTenths_eq]
  have hc : ⌈x * 10⌉ ≤ ⌈y * 10⌉ := Int.ceil_mono (by linarith)
  have hc' : ((⌈x * 10⌉ : ℤ) : ℚ) ≤ ((⌈y * 10⌉ : ℤ) : ℚ) := Int.cast_le.mpr hc
  linarith

/-- Rounding up is subadditive. -/
theorem roundUpTenths_add_le (x y : ℚ) :
    roundUpTenths (x + y) ≤ roundUpTenths x + roundUpTenths y := by
  rw [roundUpTenths_eq, roundUpTenths_eq, roundUpTenths_eq]
  have hc : ⌈(x + y) * 10⌉ ≤ ⌈x * 10⌉ + ⌈y * 10⌉ := by
    apply Int.ceil_le.mpr
    push_cast
    have h1 := Int.le_ceil (x * 10)
    have h2 := Int.le_ceil (y * 10)
    linarith
  have hc' : ((⌈(x + y) * 10⌉ : ℤ) : ℚ) ≤ ((⌈x * 10⌉ : ℤ) : ℚ) + ((⌈y * 10⌉ : ℤ) : ℚ) := by
    exact_mod_cast hc
  linarith

/-- Rounding fixes integer multiples of one tenth. -/
theorem roundUpTenths_tenth (k : ℤ) : roundUpTenths ((k : ℚ) / 10) = (k : ℚ) / 10 := by
  rw [roundUpTenths_eq]
  have : ((k : ℚ) / 10) * 10 = (k : ℚ) := by field_simp
  rw [this, Int.ceil_intCast]

theorem calc_empty : «calc» "" = 0 := rfl

theorem calc_of_ne_empty {s : String} (h : s ≠ "") :
    «calc» s = roundUpTenths (rawSum s) := by
  unfold «calc»
  rw [if_neg h]

/-- A string with non-empty character list is not the empty string. -/
theorem mk_cons_ne_empty (c : Char) (l : List Char) : String.mk (c :: l) ≠ "" := by
  intro h
  have := String.ext_iff.mp h
  simp at this

theorem calc_nonneg (s : String) : 0 ≤ «calc» s := by
  by_cases h : s = ""
  · rw [h, calc_empty]
  · rw [calc_of_ne_empty h]
    exact roundUpTenths_nonneg _ (rawSum_nonneg s)

end VisualWidth

namespace VisualWidth

/-- For a code point between 0x100 and 0xE7F whose East-Asian-width
property is not Fullwidth, Wide or Halfwidth and whose category is not
zero-width, the classifier falls through every explicit range table and
reaches the ambiguous-width and script-range handling. -/
theorem width_low_skip (c : Char) (h1 : 0x100 ≤ c.toNat) (h2 : c.toNat ≤ 0xE7F)
    (hF : east_asian_width c ≠ .F) (hW : east_asian_width c ≠ .W)
    (hH : east_asian_width c ≠ .H)
    (hcat : ¬(category c = .Mn ∨ category c = .Mc ∨ category c = .Me ∨
              category c = .Cc ∨ category c = .Cf)) :
    _get_char_width c =
      if east_asian_width c = .A then
        if 0x0370 ≤ c.toNat ∧ c.toNat ≤ 0x03FF then
          if category c = .Lu then 1.1 else 1.0
        else if 0x0400 ≤ c.toNat ∧ c.toNat ≤ 0x04FF then
          if category c = .Lu then 1.15 else 1.0
        else if 0x0100 ≤ c.toNat ∧ c.toNat ≤ 0x017F then
          if category c = .Lu then 1.1 else 1.0
        else 1.0
      else if 0x0600 ≤ c.toNat ∧ c.toNat ≤ 0x06FF then 0.8
      else if 0x0590 ≤ c.toNat ∧ c.toNat ≤ 0x05FF then 0.9
      else if 0x0E00 ≤ c.toNat ∧ c.toNat ≤ 0x0E7F then 0.9
      else if 0x0900 ≤ c.toNat ∧ c.toNat ≤ 0x097F then 0.9
      else if category c = .Lu then 1.1
      else if category c = .Nd then 0.9
      else 1.0 := by
  have hascii : ¬(c.toNat < 128) := by omega
  have hfw : ¬(east_asian_width c = .F ∨ east_asian_width c = .W) := by
    rintro (h | h)
    exacts [hF h, hW h]
  have hlow : c.toNat < 0x1100 := by omega
  have hhigh : 0xFF < c.toNat := by omega
  unfold _get_char_width
  rw [if_neg hascii, if_neg hfw, if_neg hH, if_neg hcat]
  rw [if_neg (by omega), if_neg (by omega)]
  rw [if_neg (by omega), if_neg (by omega)]
  rw [if_neg (by omega), if_neg (by omega)]
  rw [if_neg (by omega), if_neg (by omega)]
  rw [if_neg (by omega)]

/-- C1: for every non-empty string `s`, `calc s` is the accumulated raw
sum of per-code-point widths, multiplied by 10, rounded UP to the next
integer, and divided by 10; the rounding step maps a total of exactly
1.20 to 1.2 (no spurious round-up), 1.21 to 1.3, and 1.23 to 1.3. -/
theorem C1_calc_is_ceil_of_rawSum (s : String) (h : s ≠ "") :
    «calc» s = (⌈rawSum s * 10⌉ : ℚ) / 10 ∧
    roundUpTenths 1.2 = 1.2 ∧ roundUpTenths 1.21 = 1.3 ∧ roundUpTenths 1.23 = 1.3 := by
  refine ⟨?_, by decide, by decide, by decide⟩
  rw [calc_of_ne_empty h, roundUpTenths_eq]

theorem C1_witness :
    ("a" : String) ≠ "" ∧
    («calc» "a" = (⌈rawSum "a" * 10⌉ : ℚ) / 10 ∧
     roundUpTenths 1.2 = 1.2 ∧ roundUpTenths 1.21 = 1.3 ∧ roundUpTenths 1.23 = 1.3) :=
  ⟨by decide, C1_calc_is_ceil_of_rawSum "a" (by decide)⟩

/-- C2 counterexample: the claimed check `calc "A" = 1.15` is false on the
code — the classifier does give the character A the raw width 1.15, but
`calc` always rounds the total up to one decimal place, so the returned
value is ceil(11.5)/10 = 1.2. -/
theorem C2_counterexample : ¬(«calc» "A" = 1.15) := by decide

/-- C2 (amended): the ASCII classification gives the documented
single-character results for i, l, I, m, M, space, tab, 5 and a; for "A"
the raw accumulated width is 1.15 but the returned value is 1.2 because
the final step rounds up to one decimal place; and the mixed string
`"Hi!"` sums to 1.15 + 0.4 + 0.4 = 1.95 which rounds up to 2.0. -/
theorem C2_ascii_character_widths :
    «calc» "i" = 0.4 ∧ «calc» "l" = 0.4 ∧ «calc» "I" = 0.4 ∧
    «calc» "m" = 1.3 ∧ «calc» "M" = 1.3 ∧ «calc» " " = 0.3 ∧
    «calc» "\t" = 2.0 ∧ «calc» "5" = 0.9 ∧
    rawSum "A" = 1.15 ∧ «calc» "A" = 1.2 ∧
    «calc» "a" = 1.0 ∧ rawSum "Hi!" = 1.95 ∧ «calc» "Hi!" = 2.0 := by
  decide

/-- C3: every code point in the CJK Unified Ideographs main block
(U+4E00–U+9FFF) is classified with width 2.0; `calc "中" = 2.0` and
`calc "中文" = 4.0`. -/
theorem C3_cjk_main_block_wide (c : Char) (h1 : 0x4E00 ≤ c.toNat)
    (h2 : c.toNat ≤ 0x9FFF) :
    _get_char_width c = 2.0 ∧ «calc» "中" = 2.0 ∧ «calc» "中文" = 4.0 := by
  refine ⟨?_, by decide, by decide⟩
  have hw : east_asian_width c = .W := by
    unfold east_asian_width
    rw [if_pos ⟨h1, h2⟩]
  unfold _get_char_width
  rw [if_neg (by omega), if_pos (Or.inr hw)]

theorem C3_witness :
    0x4E00 ≤ ('中' : Char).toNat ∧ ('中' : Char).toNat ≤ 0x9FFF ∧
    (_get_char_width '中' = 2.0 ∧ «calc» "中" = 2.0 ∧ «calc» "中文" = 4.0) :=
  ⟨by decide, by decide, C3_cjk_main_block_wide '中' (by decide) (by decide)⟩

/-- C4: `calc "" = 0`; for every string the result is non-negative, an
integer multiple of one tenth, and at least the unrounded accumulation
(ceiling property). -/
theorem C4_calc_invariants :
    «calc» "" = 0 ∧
    ∀ s : String, 0 ≤ «calc» s ∧ (∃ k : ℤ, «calc» s = (k : ℚ) / 10) ∧
      rawSum s ≤ «calc» s := by
  refine ⟨calc_empty, fun s => ⟨calc_nonneg s, ?_, ?_⟩⟩
  · by_cases h : s = ""
    · exact ⟨0, by rw [h, calc_empty]; norm_num⟩
    · exact ⟨⌈rawSum s * 10⌉, by rw [calc_of_ne_empty h, roundUpTenths_eq]⟩
  · by_cases h : s = ""
    · rw [h, calc_empty, rawSum_empty]
    · rw [calc_of_ne_empty h]
      exact le_roundUpTenths _

/-- C5: a non-ASCII code point whose East-Asian-width property is not
Fullwidth, Wide or Halfwidth and whose general category is Mn, Mc, Me,
Cc or Cf is classified with width 0.0, and code points are classified
independently: appending such a combining mark to any base character
leaves `calc` unchanged. -/
theorem C5_zero_width_marks (c : Char) (h128 : 128 ≤ c.toNat)
    (hF : east_asian_width c ≠ .F) (hW : east_asian_width c ≠ .W)
    (hH : east_asian_width c ≠ .H)
    (hcat : category c = .Mn ∨ category c = .Mc ∨ category c = .Me ∨
            category c = .Cc ∨ category c = .Cf) (b : Char) :
    _get_char_width c = 0 ∧
    «calc» (String.mk [b, c]) = «calc» (String.mk [b]) := by
  have h0 : _get_char_width c = 0 := by
    unfold _get_char_width
    rw [if_neg (by omega)]
    rw [if_neg (by rintro (h | h); exacts [hF h, hW h])]
    rw [if_neg hH, if_pos hcat]
    norm_num
  refine ⟨h0, ?_⟩
  rw [calc_of_ne_empty (mk_cons_ne_empty b [c]), calc_of_ne_empty (mk_cons_ne_empty b [])]
  have hsum : rawSum (String.mk [b, c]) = rawSum (String.mk [b]) := by
    show List.foldl (fun total_width char => total_width + _get_char_width char) 0 [b, c] =
      List.foldl (fun total_width char => total_width + _get_char_width char) 0 [b]
    simp only [List.foldl_cons, List.foldl_nil]
    rw [h0, add_zero]
  rw [hsum]

theorem C5_witness :
    128 ≤ (Char.ofNat 0x0301).toNat ∧
    east_asian_width (Char.ofNat 0x0301) ≠ .F ∧
    east_asian_width (Char.ofNat 0x0301) ≠ .W ∧
    east_asian_width (Char.ofNat 0x0301) ≠ .H ∧
    (category (Char.ofNat 0x0301) = .Mn ∨ category (Char.ofNat 0x0301) = .Mc ∨
     category (Char.ofNat 0x0301) = .Me ∨ category (Char.ofNat 0x0301) = .Cc ∨
     category (Char.ofNat 0x0301) = .Cf) ∧
    (_get_char_width (Char.ofNat 0x0301) = 0 ∧
     «calc» (String.mk ['e', Char.ofNat 0x0301]) = «calc» (String.mk ['e'])) :=
  ⟨by decide, by decide, by decide, by decide, by decide,
   C5_zero_width_marks (Char.ofNat 0x0301) (by decide) (by decide) (by decide)
     (by decide) (by decide) 'e'⟩

/-- C6: the block-specific heuristics for characters not matched by any
earlier rule: East-Asian-Ambiguous characters get 1.1 (Greek, uppercase)
or 1.15 (Cyrillic, uppercase) or 1.1 (Latin Extended-A, uppercase) or
1.0 otherwise, and non-Ambiguous characters in the Arabic, Hebrew, Thai
and Devanagari blocks get 0.8, 0.9, 0.9 and 0.9 respectively. -/
theorem C6_block_heuristics :
    (∀ c : Char, east_asian_width c = .A →
      0x0370 ≤ c.toNat → c.toNat ≤ 0x03FF →
      ¬(category c = .Mn ∨ category c = .Mc ∨ category c = .Me ∨
        category c = .Cc ∨ category c = .Cf) →
      _get_char_width c = if category c = .Lu then 1.1 else 1.0) ∧
    (∀ c : Char, east_asian_width c = .A →
      0x0400 ≤ c.toNat → c.toNat ≤ 0x04FF →
      ¬(category c = .Mn ∨ category c = .Mc ∨ category c = .Me ∨
        category c = .Cc ∨ category c = .Cf) →
      _get_char_width c = if category c = .Lu then 1.15 else 1.0) ∧
    (∀ c : Char, east_asian_width c = .A →
      0x0100 ≤ c.toNat → c.toNat ≤ 0x017F →
      ¬(category c = .Mn ∨ category c = .Mc ∨ category c = .Me ∨
        category c = .Cc ∨ category c = .Cf) →
      _get_char_width c = if category c = .Lu then 1.1 else 1.0) ∧
    (∀ c : Char, east_asian_width c = .A → 128 ≤ c.toNat →
      ¬inRangeTables c.toNat →
      ¬(0x0370 ≤ c.toNat ∧ c.toNat ≤ 0x03FF) →
      ¬(0x0400 ≤ c.toNat ∧ c.toNat ≤ 0x04FF) →
      ¬(0x0100 ≤ c.toNat ∧ c.toNat ≤ 0x017F) →
      ¬(category c = .Mn ∨ category c = .Mc ∨ category c = .Me ∨
        category c = .Cc ∨ category c = .Cf) →
      _get_char_width c = 1.0) ∧
    (∀ c : Char, east_asian_width c ≠ .F → east_asian_width c ≠ .W →
      east_asian_width c ≠ .H → east_asian_width c ≠ .A →
      0x0600 ≤ c.toNat → c.toNat ≤ 0x06FF →
      ¬(category c = .Mn ∨ category c = .Mc ∨ category c = .Me ∨
        category c = .Cc ∨ category c = .Cf) →
      _get_char_width c = 0.8) ∧
    (∀ c : Char, east_asian_width c ≠ .F → east_asian_width c ≠ .W →
      east_asian_width c ≠ .H → east_asian_width c ≠ .A →
      0x0590 ≤ c.toNat → c.toNat ≤ 0x05FF →
      ¬(category c = .Mn ∨ category c = .Mc ∨ category c = .Me ∨
        category c = .Cc ∨ category c = .Cf) →
      _get_char_width c = 0.9) ∧
    (∀ c : Char, east_asian_width c ≠ .F → east_asian_width c ≠ .W →
      east_asian_width c ≠ .H → east_asian_width c ≠ .A →
      0x0E00 ≤ c.toNat → c.toNat ≤ 0x0E7F →
      ¬(category c = .Mn ∨ category c = .Mc ∨ category c = .Me ∨
        category c = .Cc ∨ category c = .Cf) →
      _get_char_width c = 0.9) ∧
    (∀ c : Char, east_asian_width c ≠ .F → east_asian_width c ≠ .W →
      east_asian_width c ≠ .H → east_asian_width c ≠ .A →
      0x0900 ≤ c.toNat → c.toNat ≤ 0x097F →
      ¬(category c = .Mn ∨ category c = .Mc ∨ category c = .Me ∨
        category c = .Cc ∨ category c = .Cf) →
      _get_char_width c = 0.9) := by
  refine ⟨?_, ?_, ?_, ?_, ?_, ?_, ?_, ?_⟩
  · intro c hA h1 h2 hcat
    rw [width_low_skip c (by omega) (by omega)
      (by rw [hA]; decide) (by rw [hA]; decide) (by rw [hA]; decide) hcat]
    rw [if_pos hA, if_pos ⟨h1, h2⟩]
  · intro c hA h1 h2 hcat
    rw [width_low_skip c (by omega) (by omega)
      (by rw [hA]; decide) (by rw [hA]; decide) (by rw [hA]; decide) hcat]
    rw [if_pos hA, if_neg (by omega), if_pos ⟨h1, h2⟩]
  · intro c hA h1 h2 hcat
    rw [width_low_skip c (by omega) (by omega)
      (by rw [hA]; decide) (by rw [hA]; decide) (by rw [hA]; decide) hcat]
    rw [if_pos hA, if_neg (by omega), if_neg (by omega), if_pos ⟨h1, h2⟩]
  · intro c hA h128 hrt hg hcy hla hcat
    unfold inRangeTables at hrt
    unfold _get_char_width
    rw [if_neg (by omega)]
    rw [if_neg (by rw [hA]; decide)]
    rw [if_neg (by rw [hA]; decide)]
    rw [if_neg hcat]
    rw [if_neg (by omega), if_neg (by omega)]
    rw [if_neg (by omega), if_neg (by omega)]
    rw [if_neg (by omega), if_neg (by omega)]
    rw [if_neg (by omega), if_neg (by omega)]
    rw [if_neg (by omega)]
    rw [if_pos hA, if_neg hg, if_neg hcy, if_neg hla]
  · intro c hF hW hH hA h1 h2 hcat
    rw [width_low_skip c (by omega) (by omega) hF hW hH hcat]
    rw [if_neg hA, if_pos ⟨h1, h2⟩]
  · intro c hF hW hH hA h1 h2 hcat
    rw [width_low_skip c (by omega) (by omega) hF hW hH hcat]
    rw [if_neg hA, if_neg (by omega), if_pos ⟨h1, h2⟩]
  · intro c hF hW hH hA h1 h2 hcat
    rw [width_low_skip c (by omega) (by omega) hF hW hH hcat]
    rw [if_neg hA, if_neg (by omega), if_neg (by omega), if_pos ⟨h1, h2⟩]
  · intro c hF hW hH hA h1 h2 hcat
    rw [width_low_skip c (by omega) (by omega) hF hW hH hcat]
    rw [if_neg hA, if_neg (by omega), if_neg (by omega), if_neg (by omega),
        if_pos ⟨h1, h2⟩]

theorem C6_witness :
    _get_char_width (Char.ofNat 0x0391) =
      (if category (Char.ofNat 0x0391) = .Lu then 1.1 else 1.0) ∧
    _get_char_width (Char.ofNat 0x0410) =
      (if category (Char.ofNat 0x0410) = .Lu then 1.15 else 1.0) ∧
    _get_char_width (Char.ofNat 0x0141) =
      (if category (Char.ofNat 0x0141) = .Lu then 1.1 else 1.0) ∧
    _get_char_width (Char.ofNat 0x00A7) = 1.0 ∧
    _get_char_width (Char.ofNat 0x0627) = 0.8 ∧
    _get_char_width (Char.ofNat 0x05D0) = 0.9 ∧
    _get_char_width (Char.ofNat 0x0E01) = 0.9 ∧
    _get_char_width (Char.ofNat 0x0905) = 0.9 :=
  ⟨C6_block_heuristics.1 _ (by decide) (by decide) (by decide) (by decide),
   C6_block_heuristics.2.1 _ (by decide) (by decide) (by decide) (by decide),
   C6_block_heuristics.2.2.1 _ (by decide) (by decide) (by decide) (by decide),
   C6_block_heuristics.2.2.2.1 _ (by decide) (by decide)
     (by unfold inRangeTables; decide) (by decide) (by decide) (by decide)
     (by decide),
   C6_block_heuristics.2.2.2.2.1 _ (by decide) (by decide) (by decide) (by decide)
     (by decide) (by decide) (by decide),
   C6_block_heuristics.2.2.2.2.2.1 _ (by decide) (by decide) (by decide) (by decide)
     (by decide) (by decide) (by decide),
   C6_block_heuristics.2.2.2.2.2.2.1 _ (by decide) (by decide) (by decide) (by decide)
     (by decide) (by decide) (by decide),
   C6_block_heuristics.2.2.2.2.2.2.2 _ (by decide) (by decide) (by decide) (by decide)
     (by decide) (by decide) (by decide)⟩

/-- C7: the classifier is a total function — every Unicode scalar value
(every `Char`) resolves to exactly one defined non-negative width drawn
from the classifier's constants, and the aggregator is likewise defined
and non-negative on every Unicode string; being total Lean functions,
neither can throw for any valid input. -/
theorem C7_classifier_total :
    (∀ c : Char, 0 ≤ _get_char_width c ∧ _get_char_width c ∈ widthValues) ∧
    (∀ s : String, 0 ≤ «calc» s) :=
  ⟨fun c => ⟨width_nonneg c, width_mem_widthValues c⟩, calc_nonneg⟩

/-- C8: `calc` is deterministic — the result depends only on the input
string — and the LRU memoization cache (capacity 10000) is semantically
transparent: on any well-formed cache state the cached computation
returns exactly `calc text`, preserves well-formedness, and respects the
capacity bound. -/
theorem C8_cache_transparent (cache : Cache) (text : String)
    (hwf : CacheWF cache) (hlen : cache.length ≤ 10000) :
    (cachedCalc cache text).1 = «calc» text ∧
    CacheWF (cachedCalc cache text).2 ∧
    (cachedCalc cache text).2.length ≤ 10000 := by
  cases hfind : List.find? (fun e => e.1 == text) cache with
  | none =>
    have heq : cachedCalc cache text =
        («calc» text, (text, «calc» text) :: List.take 9999 cache) := by
      unfold cachedCalc
      rw [hfind]
    rw [heq]
    refine ⟨rfl, ?_, ?_⟩
    · intro e he
      rcases List.mem_cons.mp he with rfl | he'
      · rfl
      · exact hwf e (List.take_subset _ _ he')
    · have := List.length_take_le 9999 cache
      simp only [List.length_cons]
      omega
  | some e =>
    have heq : cachedCalc cache text =
        (e.2, e :: List.eraseP (fun x => x.1 == text) cache) := by
      unfold cachedCalc
      rw [hfind]
    have hmem : e ∈ cache := List.mem_of_find?_eq_some hfind
    have hbeq := List.find?_some hfind
    have hkey : e.1 = text := eq_of_beq hbeq
    rw [heq]
    refine ⟨?_, ?_, ?_⟩
    · rw [hwf e hmem, hkey]
    · intro x hx
      rcases List.mem_cons.mp hx with rfl | hx'
      · exact hwf x hmem
      · exact hwf x (List.eraseP_subset _ hx')
    · rw [List.length_cons, List.length_eraseP_of_mem hmem (by simp [hkey])]
      have hpos : 1 ≤ cache.length := List.length_pos.mpr (List.ne_nil_of_mem hmem)
      omega

theorem C8_witness :
    CacheWF [] ∧ ([] : Cache).length ≤ 10000 ∧
    ((cachedCalc [] "a").1 = «calc» "a" ∧ CacheWF (cachedCalc [] "a").2 ∧
     (cachedCalc [] "a").2.length ≤ 10000) :=
  ⟨fun e he => absurd he (List.not_mem_nil e), by decide,
   C8_cache_transparent [] "a" (fun e he => absurd he (List.not_mem_nil e))
     (by decide)⟩

/-- C9: the per-character width always lies in the finite set
{0, 0.3, 0.4, 0.6, 0.8, 0.9, 1, 1.1, 1.15, 1.3, 2}; in particular it is
at most 2.0, so the width of a string of n code points is at most 2n. -/
theorem C9_width_value_range :
    (∀ c : Char, _get_char_width c ∈ widthValues ∧ _get_char_width c ≤ 2) ∧
    ∀ s : String, «calc» s ≤ 2 * (s.length : ℚ) := by
  refine ⟨fun c => ⟨width_mem_widthValues c, width_le_two c⟩, fun s => ?_⟩
  by_cases h : s = ""
  · rw [h, calc_empty]
    positivity
  · rw [calc_of_ne_empty h]
    have h1 : roundUpTenths (rawSum s) ≤ roundUpTenths (2 * (s.length : ℚ)) :=
      roundUpTenths_mono (rawSum_le_two_mul s)
    have h2 : roundUpTenths (2 * (s.length : ℚ)) = 2 * (s.length : ℚ) := by
      have he : (2 * (s.length : ℚ)) = ((20 * s.length : ℤ) : ℚ) / 10 := by
        push_cast
        ring
      rw [he, roundUpTenths_tenth]
    rw [h2] at h1
    exact h1

/-- C10: because the raw accumulation is additive over concatenation and
the final step is a monotone subadditive ceiling, appending text never
decreases the result and the result of a concatenation never exceeds the
sum of the parts' results. -/
theorem C10_calc_monotone_subadditive (s t : String) :
    «calc» s ≤ «calc» (s ++ t) ∧ «calc» (s ++ t) ≤ «calc» s + «calc» t := by
  by_cases hs : s = ""
  · subst hs
    have h0 : ("" : String) ++ t = t := by
      apply String.ext
      rw [String.data_append]
      show [] ++ t.data = t.data
      exact List.nil_append _
    rw [h0, calc_empty]
    exact ⟨calc_nonneg t, by linarith⟩
  by_cases ht : t = ""
  · subst ht
    have h0 : s ++ ("" : String) = s := by
      apply String.ext
      rw [String.data_append]
      show s.data ++ [] = s.data
      exact List.append_nil _
    rw [h0, calc_empty]
    exact ⟨le_refl _, by linarith⟩
  have hst : s ++ t ≠ "" := by
    intro h
    apply hs
    have hd := String.ext_iff.mp h
    rw [String.data_append] at hd
    have : s.data = [] := (List.append_eq_nil.mp (by exact_mod_cast hd)).1
    exact String.ext_iff.mpr (by rw [this])
  rw [calc_of_ne_empty hs, calc_of_ne_empty ht, calc_of_ne_empty hst, rawSum_append]
  constructor
  · exact roundUpTenths_mono (by have := rawSum_nonneg t; linarith)
  · exact roundUpTenths_add_le _ _

end VisualWidth
